import Mathlib

/-!
Verification of the receipt-analyzer backend (`src/backend/src/lib.rs`,
`src/backend/src/bin/lambda.rs`).

The development shallowly embeds the Rust code:

* `shrinkDim` models the per-iteration dimension update
  `(x as f32 * 0.9) as u32` exactly: `0.9f32` is the dyadic rational
  `15099494 / 2^24`, an IEEE-754 single-precision multiply rounds the exact
  product to 24 significant bits (round to nearest, ties to even), and the
  cast to `u32` truncates toward zero.
* `resizeLoopT` / `resize_image` model the shrink loop of `resize_image`;
  the loop is instrumented with the list of attempted dimensions so that
  statements about individual iterations can be made.  The `.result`
  projection is exactly the Rust function's return value.
* `Json`, `Receipt.fromJson?`, `Receipt.toJson` model `serde_json` values and
  the derived `Deserialize`/`Serialize` instances for `Receipt`.
* `analyzeWith` / `analyze` model `analyze`, with the image codec, base64,
  JSON text parsing and the Bedrock client abstracted as an `Env` /
  `ModelClient` record of injected capabilities (they are external crates).
* `analyze_receipt` models the axum handler in `bin/lambda.rs`; the `unwrap`
  on the base64 decode is modelled as the `panicked` outcome.
-/

/-- Fuel-based binary length: number of binary digits of `n` (`0` for `0`).
The first argument is fuel; `bitlen n n` is always fully determined because
the number of digits of `n` is at most `n` for `n ≥ 1`. -/
def bitlen : ℕ → ℕ → ℕ
  | 0, _ => 0
  | fuel + 1, n => if n = 0 then 0 else bitlen fuel (n / 2) + 1

/-- Number of binary digits of `n`. -/
def nbits (n : ℕ) : ℕ := bitlen n n

/-- Round `n` to the nearest multiple of `2 ^ s` (ties to even multiples),
the significand-rounding step of an IEEE-754 operation. -/
def roundAt (n s : ℕ) : ℕ :=
  (if 2 ^ (s - 1) < n % 2 ^ s then n / 2 ^ s + 1
   else if n % 2 ^ s < 2 ^ (s - 1) then n / 2 ^ s
   else if n / 2 ^ s % 2 = 0 then n / 2 ^ s else n / 2 ^ s + 1) * 2 ^ s

/-- Round a natural number to 24 significant bits (round to nearest, ties to
even): the value of `n as f32` scaled back to an integer, exact for every
`n < 2 ^ 64`. -/
def rnd24 (n : ℕ) : ℕ :=
  if n < 2 ^ 24 then n else roundAt n (nbits n - 24)

/-- Exact model of the Rust expression `(x as f32 * 0.9) as u32` from
`resize_image` (src/backend/src/lib.rs:33-34): convert to `f32`
(`rnd24 w`), multiply by `0.9f32 = 15099494 / 2^24` with round-to-nearest
(`rnd24 (… * 15099494)` keeps 24 significant bits of the product), truncate
toward zero (`/ 2 ^ 24`). -/
def shrinkDim (w : ℕ) : ℕ :=
  rnd24 (rnd24 w * 15099494) / 2 ^ 24

theorem bitlen_zero (fuel : ℕ) : bitlen fuel 0 = 0 := by
  cases fuel <;> simp [bitlen]

theorem bitlen_bounds : ∀ fuel n : ℕ, 1 ≤ n → n ≤ fuel →
    2 ^ (bitlen fuel n - 1) ≤ n ∧ n < 2 ^ bitlen fuel n := by
  intro fuel
  induction fuel with
  | zero => intro n h1 h2; omega
  | succ f IH =>
    intro n h1 h2
    have hn0 : ¬ n = 0 := by omega
    simp only [bitlen, hn0, if_false]
    by_cases hone : n = 1
    · subst hone
      simp [bitlen_zero]
    · have hge2 : 2 ≤ n := by omega
      have hh1 : 1 ≤ n / 2 := by omega
      have hh2 : n / 2 ≤ f := by omega
      obtain ⟨l, u⟩ := IH (n / 2) hh1 hh2
      have hb1 : 1 ≤ bitlen f (n / 2) := by
        rcases Nat.eq_zero_or_pos (bitlen f (n / 2)) with h0 | h0
        · rw [h0] at u; simp at u; omega
        · exact h0
      constructor
      · have e : bitlen f (n / 2) + 1 - 1 = (bitlen f (n / 2) - 1) + 1 := by omega
        rw [e, pow_succ]
        omega
      · rw [pow_succ]
        omega

theorem nbits_bounds (n : ℕ) (h : 1 ≤ n) :
    2 ^ (nbits n - 1) ≤ n ∧ n < 2 ^ nbits n :=
  bitlen_bounds n n h le_rfl

theorem roundAt_le (n s : ℕ) (hs : 1 ≤ s) (hkey : 2 ^ (s - 1) * 2 ^ 24 ≤ n) :
    roundAt n s * 2 ^ 24 ≤ n * 2 ^ 24 + n := by
  have hB : 2 ^ s = 2 * 2 ^ (s - 1) := by
    conv_lhs => rw [show s = (s - 1) + 1 from by omega]
    rw [pow_succ]; ring
  have hqr : 2 ^ s * (n / 2 ^ s) + n % 2 ^ s = n := Nat.div_add_mod n (2 ^ s)
  have hr : n % 2 ^ s < 2 ^ s := Nat.mod_lt _ (by positivity)
  set A := 2 ^ (s - 1) with hA
  set m := 2 ^ s * (n / 2 ^ s) with hm
  set r := n % 2 ^ s with hrdef
  unfold roundAt
  rw [← hA, ← hrdef]
  split
  · -- round up: result is (q + 1) * 2 ^ s = m + 2 ^ s, with A < r
    rename_i hup
    have hv : (n / 2 ^ s + 1) * 2 ^ s = m + 2 ^ s := by rw [hm]; ring
    rw [hv, hB]
    -- (m + 2A) * 2^24 ≤ n * 2^24 + n, from m = n - r, r > A, A * 2^24 ≤ n
    have h1 : (m + 2 * A) * 2 ^ 24 = m * 2 ^ 24 + 2 * (A * 2 ^ 24) := by ring
    rw [h1]
    have h2 : m * 2 ^ 24 + r * 2 ^ 24 = n * 2 ^ 24 := by
      rw [← add_mul, hqr]
    have h3 : A * 2 ^ 24 ≤ n := hkey
    nlinarith [hup, hr, hB]
  · split
    · -- keep: result is q * 2 ^ s = m ≤ n
      rename_i hdown
      have hv : n / 2 ^ s * 2 ^ s = m := by rw [hm]; ring
      rw [hv]
      have hmn : m ≤ n := by omega
      nlinarith
    · split
      · -- tie, even: result is m
        have hv : n / 2 ^ s * 2 ^ s = m := by rw [hm]; ring
        rw [hv]
        have hmn : m ≤ n := by omega
        nlinarith
      · -- tie, odd: round up, with r = A exactly
        rename_i hnotup hnotdown _
        have hreq : r = A := by omega
        have hv : (n / 2 ^ s + 1) * 2 ^ s = m + 2 ^ s := by rw [hm]; ring
        rw [hv, hB]
        have h1 : (m + 2 * A) * 2 ^ 24 = m * 2 ^ 24 + 2 * (A * 2 ^ 24) := by ring
        rw [h1]
        have h2 : m * 2 ^ 24 + r * 2 ^ 24 = n * 2 ^ 24 := by
          rw [← add_mul, hqr]
        have h3 : A * 2 ^ 24 ≤ n := hkey
        nlinarith [hr, hB, hreq]

theorem roundAt_ge (n s : ℕ) (hs : 1 ≤ s) (hkey : 2 ^ (s - 1) * 2 ^ 24 ≤ n) :
    n * 2 ^ 24 ≤ roundAt n s * 2 ^ 24 + n := by
  have hB : 2 ^ s = 2 * 2 ^ (s - 1) := by
    conv_lhs => rw [show s = (s - 1) + 1 from by omega]
    rw [pow_succ]; ring
  have hqr : 2 ^ s * (n / 2 ^ s) + n % 2 ^ s = n := Nat.div_add_mod n (2 ^ s)
  have hr : n % 2 ^ s < 2 ^ s := Nat.mod_lt _ (by positivity)
  set A := 2 ^ (s - 1) with hA
  set m := 2 ^ s * (n / 2 ^ s) with hm
  set r := n % 2 ^ s with hrdef
  unfold roundAt
  rw [← hA, ← hrdef]
  split
  · -- round up: result m + 2^s ≥ n already
    have hv : (n / 2 ^ s + 1) * 2 ^ s = m + 2 ^ s := by rw [hm]; ring
    rw [hv]
    have hmn : n ≤ m + 2 ^ s := by omega
    nlinarith
  · split
    · -- keep: result m = n - r with r < A, A * 2^24 ≤ n
      rename_i hnotup hdown
      have hv : n / 2 ^ s * 2 ^ s = m := by rw [hm]; ring
      rw [hv]
      have h2 : n * 2 ^ 24 = m * 2 ^ 24 + r * 2 ^ 24 := by
        rw [← add_mul]; omega
      rw [h2]
      have h3 : r * 2 ^ 24 ≤ A * 2 ^ 24 := by
        have : r ≤ A := by omega
        exact Nat.mul_le_mul_right _ this
      omega
    · split
      · -- tie, even: result m = n - A
        rename_i hnotup hnotdown _
        have hreq : r = A := by omega
        have hv : n / 2 ^ s * 2 ^ s = m := by rw [hm]; ring
        rw [hv]
        have h2 : n * 2 ^ 24 = m * 2 ^ 24 + r * 2 ^ 24 := by
          rw [← add_mul, hqr]
        rw [h2]
        have h3 : r * 2 ^ 24 ≤ A * 2 ^ 24 := by
          have : r ≤ A := by omega
          exact Nat.mul_le_mul_right _ this
        omega
      · -- tie, odd: round up
        have hv : (n / 2 ^ s + 1) * 2 ^ s = m + 2 ^ s := by rw [hm]; ring
        rw [hv]
        have hmn : n ≤ m + 2 ^ s := by omega
        nlinarith

theorem rnd24_le (n : ℕ) : rnd24 n * 2 ^ 24 ≤ n * 2 ^ 24 + n := by
  unfold rnd24
  split
  · omega
  · rename_i hbig
    have hn24 : 2 ^ 24 ≤ n := by omega
    have hn1 : 1 ≤ n := by omega
    obtain ⟨hl, hu⟩ := nbits_bounds n hn1
    have h24 : 24 < nbits n := by
      have : (2 : ℕ) ^ 24 < 2 ^ nbits n := by omega
      exact (Nat.pow_lt_pow_iff_right (by norm_num)).mp this
    apply roundAt_le
    · omega
    · have e : nbits n - 24 - 1 + 24 = nbits n - 1 := by omega
      calc 2 ^ (nbits n - 24 - 1) * 2 ^ 24 = 2 ^ (nbits n - 24 - 1 + 24) := by
            rw [pow_add]
        _ = 2 ^ (nbits n - 1) := by rw [e]
        _ ≤ n := hl

theorem rnd24_ge (n : ℕ) : n * 2 ^ 24 ≤ rnd24 n * 2 ^ 24 + n := by
  unfold rnd24
  split
  · omega
  · rename_i hbig
    have hn24 : 2 ^ 24 ≤ n := by omega
    have hn1 : 1 ≤ n := by omega
    obtain ⟨hl, hu⟩ := nbits_bounds n hn1
    have h24 : 24 < nbits n := by
      have : (2 : ℕ) ^ 24 < 2 ^ nbits n := by omega
      exact (Nat.pow_lt_pow_iff_right (by norm_num)).mp this
    apply roundAt_ge
    · omega
    · have e : nbits n - 24 - 1 + 24 = nbits n - 1 := by omega
      calc 2 ^ (nbits n - 24 - 1) * 2 ^ 24 = 2 ^ (nbits n - 24 - 1 + 24) := by
            rw [pow_add]
        _ = 2 ^ (nbits n - 1) := by rw [e]
        _ ≤ n := hl

theorem rnd24_id (w : ℕ) (h : w ≤ 2 ^ 24) : rnd24 w = w := by
  rcases Nat.lt_or_ge w (2 ^ 24) with hw | hw
  · unfold rnd24; rw [if_pos hw]
  · have : w = 2 ^ 24 := by omega
    subst this
    decide

/-- General upper bound for the shrink step: at most a factor `0.91`. -/
theorem shrinkDim_le_general (w : ℕ) : 100 * shrinkDim w ≤ 91 * w := by
  have h1 : shrinkDim w * 2 ^ 24 ≤ rnd24 (rnd24 w * 15099494) :=
    Nat.div_mul_le_self _ _
  have h2 := rnd24_le (rnd24 w * 15099494)
  have h3 := rnd24_le w
  -- all inequalities are linear in `shrinkDim w`, `rnd24 (…)`, `rnd24 w`, `w`
  have e : (2 : ℕ) ^ 24 = 16777216 := by norm_num
  rw [e] at h1 h2 h3
  unfold shrinkDim
  rw [e]
  omega

theorem shrinkDim_le_self (w : ℕ) : shrinkDim w ≤ w := by
  have := shrinkDim_le_general w
  omega

theorem shrinkDim_lt_self (w : ℕ) (h : 1 ≤ w) : shrinkDim w < w := by
  have := shrinkDim_le_general w
  omega

/-- In the `f32`-exact range, one shrink step loses at most one unit beyond
the ideal `9 * w / 10`. -/
theorem shrinkDim_upper (w : ℕ) (h : w ≤ 2 ^ 24) :
    10 * shrinkDim w ≤ 9 * w + 10 := by
  have hid : rnd24 w = w := rnd24_id w h
  have h1 : shrinkDim w * 2 ^ 24 ≤ rnd24 (rnd24 w * 15099494) :=
    Nat.div_mul_le_self _ _
  have h2 := rnd24_le (rnd24 w * 15099494)
  rw [hid] at h1 h2
  have e : (2 : ℕ) ^ 24 = 16777216 := by norm_num
  rw [e] at h1 h2 h
  unfold shrinkDim
  rw [hid, e]
  omega

/-- In the `f32`-exact range, one shrink step stays within `3` units below
the ideal `9 * w / 10`. -/
theorem shrinkDim_lower (w : ℕ) (h : w ≤ 2 ^ 24) :
    9 * w ≤ 10 * shrinkDim w + 30 := by
  have hid : rnd24 w = w := rnd24_id w h
  have h2 := rnd24_ge (rnd24 w * 15099494)
  rw [hid] at h2
  have e : (2 : ℕ) ^ 24 = 16777216 := by norm_num
  rw [e] at h2 h
  unfold shrinkDim
  rw [hid, e]
  omega

/-- Model of `serde_json::Value`.  Objects are the ordered entry list of the
underlying map. -/
inductive Json where
  | null
  | bool (b : Bool)
  | num (q : ℚ)
  | str (s : String)
  | arr (elems : List Json)
  | obj (entries : List (String × Json))

/-- Model of `value["key"]` on a `serde_json::Value`: the entry for `key`
when the value is an object that has one, `Null` otherwise. -/
def Json.getKey : Json → String → Json
  | .obj entries, key =>
    match entries.lookup key with
    | some v => v
    | none => .null
  | _, _ => .null

/-- Model of `value[i]` on a `serde_json::Value`: the `i`-th element when the
value is an array of sufficient length, `Null` otherwise. -/
def Json.getIdx : Json → ℕ → Json
  | .arr elems, i => (elems.get? i).getD .null
  | _, _ => .null

/-- Model of `Value::as_str`. -/
def Json.asStr? : Json → Option String
  | .str s => some s
  | _ => none

/-- Model of reading a JSON number (the `f64` field deserializer; finite
doubles are represented as rationals). -/
def Json.asNum? : Json → Option ℚ
  | .num q => some q
  | _ => none

/-- Model of `ReceiptItem` (src/backend/src/lib.rs:20-24). -/
structure ReceiptItem where
  name : String
  price : String
deriving DecidableEq

/-- Model of `Receipt` (src/backend/src/lib.rs:10-18); the `f64` field
`confidence` is represented as a rational. -/
structure Receipt where
  brand : String
  store : String
  date : String
  items : List ReceiptItem
  total : String
  confidence : ℚ
deriving DecidableEq

/-- Derived `Serialize` for `ReceiptItem`: fields in declaration order. -/
def ReceiptItem.toJson (it : ReceiptItem) : Json :=
  .obj [("name", .str it.name), ("price", .str it.price)]

/-- Derived `Deserialize` for `ReceiptItem`: requires an object with a string
`name` and a string `price`; anything else is a decode error (`none`). -/
def ReceiptItem.fromJson? (j : Json) : Option ReceiptItem := do
  let name ← (j.getKey "name").asStr?
  let price ← (j.getKey "price").asStr?
  pure ⟨name, price⟩

/-- Sequence deserialization: every element must decode, order preserved. -/
def decodeItemList : List Json → Option (List ReceiptItem)
  | [] => some []
  | j :: rest =>
    match ReceiptItem.fromJson? j, decodeItemList rest with
    | some it, some its => some (it :: its)
    | _, _ => none

/-- Deserializing the `items` field: requires a JSON array whose elements all
decode to `ReceiptItem`s. -/
def Json.asItems? : Json → Option (List ReceiptItem)
  | .arr elems => decodeItemList elems
  | _ => none

/-- Derived `Serialize` for `Receipt`: fields in declaration order. -/
def Receipt.toJson (r : Receipt) : Json :=
  .obj [("brand", .str r.brand), ("store", .str r.store),
    ("date", .str r.date),
    ("items", .arr (r.items.map ReceiptItem.toJson)),
    ("total", .str r.total), ("confidence", .num r.confidence)]

/-- Derived `Deserialize` for `Receipt`: every field must be present with the
right type (a missing field reads as `Null` through `getKey` and fails its
type check); unknown fields are ignored; no range check on `confidence`. -/
def Receipt.fromJson? (j : Json) : Option Receipt := do
  let brand ← (j.getKey "brand").asStr?
  let store ← (j.getKey "store").asStr?
  let date ← (j.getKey "date").asStr?
  let items ← (j.getKey "items").asItems?
  let total ← (j.getKey "total").asStr?
  let confidence ← (j.getKey "confidence").asNum?
  pure ⟨brand, store, date, items, total, confidence⟩

/-- Model of a decoded `image::DynamicImage`: its reported dimensions plus
abstract pixel content. -/
structure Image where
  width : ℕ
  height : ℕ
  content : List ℕ

/-- Injected capabilities of the external crates used by `lib.rs`: the
`image` codec (`load_from_memory`, `resize`, `write_to` with JPEG), the
`base64` engine, `serde_json` text parsing/printing, and the prompt template
constant.  They are collaborators outside the verified core; each claim is
stated for every (or for an explicit stub) environment. -/
structure Env where
  load : List ℕ → Except String Image
  resize : Image → ℕ → ℕ → Image
  writeJpeg : Image → Except String (List ℕ)
  base64Encode : List ℕ → String
  base64Decode : String → Option (List ℕ)
  parseJsonBytes : List ℕ → Option Json
  parseJson : String → Option Json
  encodeJson : Json → List ℕ
  promptText : String

/-- The injected Bedrock runtime client: `invoke_model` with the serialized
request body, returning the raw response body bytes or a transport error. -/
structure ModelClient where
  invoke : List ℕ → Except String (List ℕ)

/-- Result of the instrumented resize loop: the Rust function's return value
plus the list of `(width, height)` pairs passed to `image.resize` (one per
loop iteration, in order). -/
structure ResizeOut where
  result : Except String (List ℕ)
  attempts : List (ℕ × ℕ)

/-- Model of the `while` loop of `resize_image` (src/backend/src/lib.rs:32-49)
with state `(current_size, width, height)`:

* loop while `current_size > max_size_bytes && width > 100 && height > 100`;
* shrink both dimensions by the `f32` multiply `* 0.9` truncated to `u32`;
* resize the original decoded image to the new dimensions, re-encode as JPEG
  (a codec failure propagates, as `write_to(..)?` does);
* return the encoded bytes as soon as they fit the budget;
* falling out of the loop yields the generic failure
  (`anyhow!("Failed to resize image to target size")`).

The attempted dimensions are also recorded.  Termination: each iteration
strictly shrinks `width` (`shrinkDim_lt_self`, using `width > 100`). -/
def resizeLoopT (env : Env) (image : Image) (max_size_bytes : ℕ) :
    ℕ → ℕ → ℕ → ResizeOut
  | current_size, width, height =>
    if hguard : max_size_bytes < current_size ∧ 100 < width ∧ 100 < height then
      match env.writeJpeg (env.resize image (shrinkDim width) (shrinkDim height)) with
      | .error e => ⟨.error e, [(shrinkDim width, shrinkDim height)]⟩
      | .ok resized_image_data =>
        if resized_image_data.length ≤ max_size_bytes then
          ⟨.ok resized_image_data, [(shrinkDim width, shrinkDim height)]⟩
        else
          let rest := resizeLoopT env image max_size_bytes
            resized_image_data.length (shrinkDim width) (shrinkDim height)
          ⟨rest.result, (shrinkDim width, shrinkDim height) :: rest.attempts⟩
    else ⟨.error "Failed to resize image to target size", []⟩
  termination_by _ width _ => width
  decreasing_by exact shrinkDim_lt_self width (by omega)

/-- Instrumented model of `resize_image` (src/backend/src/lib.rs:26-50):
decode the input bytes (a decode failure propagates), then run the shrink
loop starting from the input's byte length and the decoded dimensions. -/
def resize_imageT (env : Env) (image_data : List ℕ) (max_size_bytes : ℕ) :
    ResizeOut :=
  match env.load image_data with
  | .error e => ⟨.error e, []⟩
  | .ok image =>
    resizeLoopT env image max_size_bytes image_data.length image.width image.height

/-- Model of `resize_image`: the value the Rust function returns. -/
def resize_image (env : Env) (image_data : List ℕ) (max_size_bytes : ℕ) :
    Except String (List ℕ) :=
  (resize_imageT env image_data max_size_bytes).result

/-- Model of the `bedrock_request` JSON built in `analyze`
(src/backend/src/lib.rs:78-123): the protocol version, the token cap, and one
user message carrying the base64 image attachment and the instruction text
(the Japanese prompt template with the embedded example format is the
environment's `promptText` constant). -/
def bedrockRequest (env : Env) (base64_image : String) : Json :=
  .obj [("anthropic_version", .str "bedrock-2023-05-31"),
    ("max_tokens", .num 1000),
    ("messages", .arr [
      .obj [("role", .str "user"),
        ("content", .arr [
          .obj [("type", .str "image"),
            ("source", .obj [("type", .str "base64"),
              ("media_type", .str "image/jpeg"),
              ("data", .str base64_image)])],
          .obj [("type", .str "text"), ("text", .str env.promptText)]])]])]

/-- Model of `analyze` (src/backend/src/lib.rs:52-143) with the byte budget
as a parameter: resize the image (propagating its failure), base64-encode it,
build and send the Bedrock request (a transport failure propagates), parse
the response body, extract `content[0].text` as a string (absence is the
`Failed to extract analysis result` error), then `serde_json::from_str` the
text into a `Receipt` (parse or shape failure is a decode error).  The
`usage` logging is a diagnostic side effect with no bearing on the result. -/
def analyzeWith (env : Env) (client : ModelClient) (image : List ℕ)
    (max_size_bytes : ℕ) : Except String Receipt :=
  match resize_image env image max_size_bytes with
  | .error e => .error e
  | .ok resized =>
    match client.invoke (env.encodeJson (bedrockRequest env (env.base64Encode resized))) with
    | .error e => .error e
    | .ok body =>
      match env.parseJsonBytes body with
      | none => .error "malformed response body"
      | some response_body =>
        match (((response_body.getKey "content").getIdx 0).getKey "text").asStr? with
        | none => .error "Failed to extract analysis result"
        | some analysis_result =>
          match env.parseJson analysis_result with
          | none => .error "malformed model reply"
          | some v =>
            match Receipt.fromJson? v with
            | none => .error "malformed model reply"
            | some receipt => .ok receipt

/-- Model of `analyze`: the budget is fixed to `1024 * 1024` bytes exactly as
in src/backend/src/lib.rs:53. -/
def analyze (env : Env) (client : ModelClient) (image : List ℕ) :
    Except String Receipt :=
  analyzeWith env client image (1024 * 1024)

/-- Model of the HTTP request body `{ "image": base64-string }` accepted by
the lambda route (`ReceiptRequest` in src/backend/src/bin/lambda.rs). -/
structure ReceiptRequest where
  image : String

/-- Observable outcome of one invocation of the axum handler: a panic (the
`unwrap` on the base64 decode), an HTTP error status, or a JSON body. -/
inductive HandlerResult where
  | panicked
  | status (code : ℕ)
  | ok (body : Json)

/-- Model of `analyze_receipt` (src/backend/src/bin/lambda.rs:27-36): decode
the base64 payload with `.unwrap()` (a decode failure panics), run the
pipeline, answer `{ "result": receipt }` on success and the bare
`INTERNAL_SERVER_ERROR` status (500) on any pipeline error. -/
def analyze_receipt (env : Env) (client : ModelClient)
    (payload : ReceiptRequest) : HandlerResult :=
  match env.base64Decode payload.image with
  | none => .panicked
  | some image_data =>
    match analyze env client image_data with
    | .ok result => .ok (Json.obj [("result", Receipt.toJson result)])
    | .error _ => .status 500

theorem resizeLoopT_ok_le (env : Env) (image : Image) (max_size_bytes : ℕ) :
    ∀ width current_size height bytes,
      (resizeLoopT env image max_size_bytes current_size width height).result =
        .ok bytes →
      bytes.length ≤ max_size_bytes := by
  intro width
  induction width using Nat.strong_induction_on with
  | _ width IH =>
    intro current_size height bytes hok
    rw [resizeLoopT] at hok
    split at hok
    · rename_i hguard
      cases henc : env.writeJpeg (env.resize image (shrinkDim width) (shrinkDim height)) with
      | error e => rw [henc] at hok; simp at hok
      | ok resized =>
        rw [henc] at hok
        dsimp only at hok
        by_cases hfit : resized.length ≤ max_size_bytes
        · rw [if_pos hfit] at hok
          simp at hok
          subst hok
          exact hfit
        · rw [if_neg hfit] at hok
          simp only at hok
          exact IH (shrinkDim width) (shrinkDim_lt_self width (by omega)) _ _ _ hok
    · simp at hok

theorem resizeLoopT_never_fits (env : Env) (image : Image) (max_size_bytes : ℕ)
    (henc : ∀ w h, ∃ bs, env.writeJpeg (env.resize image w h) = .ok bs ∧
      max_size_bytes < bs.length) :
    ∀ width current_size height,
      (resizeLoopT env image max_size_bytes current_size width height).result =
        .error "Failed to resize image to target size" ∧
      (resizeLoopT env image max_size_bytes current_size width height).attempts.length ≤
        width := by
  intro width
  induction width using Nat.strong_induction_on with
  | _ width IH =>
    intro current_size height
    rw [resizeLoopT]
    split
    · rename_i hguard
      obtain ⟨bs, hbs, hlen⟩ := henc (shrinkDim width) (shrinkDim height)
      rw [hbs]
      dsimp only
      rw [if_neg (by omega)]
      have hlt : shrinkDim width < width := shrinkDim_lt_self width (by omega)
      obtain ⟨ih1, ih2⟩ := IH (shrinkDim width) hlt bs.length (shrinkDim height)
      refine ⟨ih1, ?_⟩
      simp only [List.length_cons]
      omega
    · simp

theorem resizeLoopT_attempts (env : Env) (image : Image) (max_size_bytes : ℕ) :
    ∀ width current_size height k,
      k < (resizeLoopT env image max_size_bytes current_size width height).attempts.length →
      (resizeLoopT env image max_size_bytes current_size width height).attempts.get? k =
        some (shrinkDim^[k + 1] width, shrinkDim^[k + 1] height) := by
  intro width
  induction width using Nat.strong_induction_on with
  | _ width IH =>
    intro current_size height k hk
    rw [resizeLoopT] at hk ⊢
    split
    · rename_i hguard
      rw [dif_pos hguard] at hk
      cases henc : env.writeJpeg (env.resize image (shrinkDim width) (shrinkDim height)) with
      | error e =>
        rw [henc] at hk
        dsimp only at hk ⊢
        simp at hk
        subst hk
        simp [Function.iterate_one]
      | ok resized =>
        rw [henc] at hk
        dsimp only at hk ⊢
        by_cases hfit : resized.length ≤ max_size_bytes
        · rw [if_pos hfit] at hk ⊢
          simp at hk
          subst hk
          simp [Function.iterate_one]
        · rw [if_neg hfit] at hk ⊢
          simp only [List.length_cons] at hk
          cases k with
          | zero => simp [Function.iterate_one]
          | succ k2 =>
            simp only [List.get?_cons_succ]
            have hlt : shrinkDim width < width := shrinkDim_lt_self width (by omega)
            have hrec := IH (shrinkDim width) hlt resized.length (shrinkDim height) k2
              (by omega)
            rw [hrec, ← Function.iterate_succ_apply shrinkDim (k2 + 1) width,
              ← Function.iterate_succ_apply shrinkDim (k2 + 1) height]
    · rename_i hguard
      rw [dif_neg hguard] at hk
      simp at hk

theorem resizeLoopT_floor_stop (env : Env) (image : Image)
    (max_size_bytes current_size width height : ℕ)
    (hsize : max_size_bytes < current_size)
    (hfloor : width ≤ 100 ∨ height ≤ 100) :
    resizeLoopT env image max_size_bytes current_size width height =
      ⟨.error "Failed to resize image to target size", []⟩ := by
  rw [resizeLoopT]
  rw [dif_neg (by omega)]

theorem shrinkIter_le_self (k w : ℕ) : shrinkDim^[k] w ≤ w := by
  induction k with
  | zero => simp
  | succ k IH =>
    rw [Function.iterate_succ_apply']
    exact le_trans (shrinkDim_le_self _) IH

/-- Compounded error of the iterated shrink step against the ideal real
sequence `w * 0.9 ^ k`, valid in the `f32`-exact dimension range: at most
`3` units per iteration. -/
theorem shrinkIter_tolerance (w : ℕ) (hw : w ≤ 2 ^ 24) (k : ℕ) :
    |(shrinkDim^[k] w : ℚ) - (w : ℚ) * (9 / 10) ^ k| ≤ 3 * k := by
  induction k with
  | zero => simp
  | succ k IH =>
    rw [Function.iterate_succ_apply']
    set d := shrinkDim^[k] w with hd
    have hdle : d ≤ 2 ^ 24 := le_trans (shrinkIter_le_self k w) hw
    have hup := shrinkDim_upper d hdle
    have hlo := shrinkDim_lower d hdle
    have hstep : |(shrinkDim d : ℚ) - 9 / 10 * d| ≤ 3 := by
      rw [abs_le]
      constructor
      · have hcast : (9 : ℚ) * d ≤ 10 * shrinkDim d + 30 := by exact_mod_cast hlo
        linarith
      · have hcast : (10 : ℚ) * shrinkDim d ≤ 9 * d + 10 := by exact_mod_cast hup
        linarith
    have hsplit : |(shrinkDim d : ℚ) - w * (9 / 10) ^ (k + 1)| ≤
        |(shrinkDim d : ℚ) - 9 / 10 * d| + |9 / 10 * (d : ℚ) - w * (9 / 10) ^ (k + 1)| :=
      abs_sub_le _ _ _
    have hfactor : |9 / 10 * (d : ℚ) - w * (9 / 10) ^ (k + 1)| =
        9 / 10 * |(d : ℚ) - w * (9 / 10) ^ k| := by
      have e : 9 / 10 * (d : ℚ) - w * (9 / 10) ^ (k + 1) =
          9 / 10 * ((d : ℚ) - w * (9 / 10) ^ k) := by ring
      rw [e, abs_mul, abs_of_pos]
      norm_num
    have hk0 : (0 : ℚ) ≤ k := Nat.cast_nonneg k
    rw [hfactor] at hsplit
    have : |(shrinkDim d : ℚ) - w * (9 / 10) ^ (k + 1)| ≤ 3 + 9 / 10 * (3 * k) := by
      have := mul_le_mul_of_nonneg_left IH (by norm_num : (0 : ℚ) ≤ 9 / 10)
      linarith
    push_cast
    push_cast at this
    linarith

/-- Stub decoded image reported by the codec stubs below. -/
def stdImage : Image := ⟨4000, 3000, []⟩

/-- Stub input that is over the 1 MiB budget by one byte. -/
def bigData : List ℕ := List.replicate (1024 * 1024 + 1) 0

/-- Stub input that is far below the 1 MiB budget. -/
def smallData : List ℕ := [0, 1, 2]

/-- Response envelope with `content[0].text` carrying the given text. -/
def mkEnvelope (t : String) : Json :=
  .obj [("content", .arr [.obj [("type", Json.str "text"), ("text", Json.str t)]]),
    ("usage", .obj [])]

/-- Well-formed model answer used by the success-path stubs. -/
def goodReceiptJson : Json :=
  .obj [("brand", .str "X"), ("store", .str "Y"), ("date", .str "2024-01-01"),
    ("items", .arr [.obj [("name", .str "A"), ("price", .str "100")]]),
    ("total", .str "100"), ("confidence", .num (9 / 10))]

/-- Model answer with a `confidence` of `2.0`, outside `[0, 1]`. -/
def conf2ReceiptJson : Json :=
  .obj [("brand", .str "X"), ("store", .str "Y"), ("date", .str "2024-01-01"),
    ("items", .arr [.obj [("name", .str "A"), ("price", .str "100")]]),
    ("total", .str "100"), ("confidence", .num 2)]

/-- Model answer with no `confidence` field. -/
def noConfReceiptJson : Json :=
  .obj [("brand", .str "X"), ("store", .str "Y"), ("date", .str "2024-01-01"),
    ("items", .arr [.obj [("name", .str "A"), ("price", .str "100")]]),
    ("total", .str "100")]

/-- Model answer with no `items` field. -/
def noItemsReceiptJson : Json :=
  .obj [("brand", .str "X"), ("store", .str "Y"), ("date", .str "2024-01-01"),
    ("total", .str "100"), ("confidence", .num (9 / 10))]

/-- The receipt `goodReceiptJson` decodes to. -/
def goodReceipt : Receipt := ⟨"X", "Y", "2024-01-01", [⟨"A", "100"⟩], "100", 9 / 10⟩

/-- The receipt `conf2ReceiptJson` decodes to: confidence `2.0`. -/
def conf2Receipt : Receipt := ⟨"X", "Y", "2024-01-01", [⟨"A", "100"⟩], "100", 2⟩

/-- Test double for the external capabilities: the codec reports a
4000 × 3000 image and re-encodes everything to the 1-byte JPEG `[0]`; the
JSON text parser maps the distinguished marker strings to the canned model
answers above; response bodies `[1]`…`[5]` select the corresponding
envelope. -/
def stubEnv : Env where
  load := fun _ => .ok stdImage
  resize := fun img w h => ⟨w, h, img.content⟩
  writeJpeg := fun _ => .ok [0]
  base64Encode := fun _ => "b64image"
  base64Decode := fun _ => some bigData
  parseJsonBytes := fun bs =>
    if bs = [1] then some (Json.obj [])
    else if bs = [2] then some (mkEnvelope "notjson")
    else if bs = [3] then some (mkEnvelope "noconf")
    else if bs = [4] then some (mkEnvelope "noitems")
    else if bs = [5] then some (mkEnvelope "conf2")
    else some (mkEnvelope "good")
  parseJson := fun s =>
    if s = "notjson" then none
    else if s = "noconf" then some noConfReceiptJson
    else if s = "noitems" then some noItemsReceiptJson
    else if s = "conf2" then some conf2ReceiptJson
    else if s = "good" then some goodReceiptJson
    else none
  encodeJson := fun _ => []
  promptText := "instruction template"

/-- Stub Bedrock client answering with the 1-byte body `[n]`. -/
def clientN (n : ℕ) : ModelClient := ⟨fun _ => .ok [n]⟩

/-- Stub Bedrock client whose call fails at the transport level. -/
def clientFail : ModelClient := ⟨fun _ => .error "transport failure"⟩

/-- Codec stub reporting a 101 × 101 image whose re-encodings never fit a
zero budget. -/
def env101 : Env where
  load := fun _ => .ok ⟨101, 101, []⟩
  resize := fun img w h => ⟨w, h, img.content⟩
  writeJpeg := fun _ => .ok [7]
  base64Encode := fun _ => ""
  base64Decode := fun _ => none
  parseJsonBytes := fun _ => none
  parseJson := fun _ => none
  encodeJson := fun _ => []
  promptText := ""

/-- Codec stub reporting a `u32::MAX` square image; every re-encoding is the
1-byte JPEG `[5]`. -/
def envHuge : Env where
  load := fun _ => .ok ⟨4294967295, 4294967295, []⟩
  resize := fun img w h => ⟨w, h, img.content⟩
  writeJpeg := fun _ => .ok [5]
  base64Encode := fun _ => ""
  base64Decode := fun _ => none
  parseJsonBytes := fun _ => none
  parseJson := fun _ => none
  encodeJson := fun _ => []
  promptText := ""

/-- Codec stub whose re-encodings always have 2 bytes (never fit budget 1). -/
def envC4 : Env where
  load := fun _ => .ok stdImage
  resize := fun img w h => ⟨w, h, img.content⟩
  writeJpeg := fun _ => .ok [1, 2]
  base64Encode := fun _ => ""
  base64Decode := fun _ => none
  parseJsonBytes := fun _ => none
  parseJson := fun _ => none
  encodeJson := fun _ => []
  promptText := ""

theorem bigData_length : bigData.length = 1048577 := by
  rw [bigData, List.length_replicate]

theorem resizeLoopT_step_fit (env : Env) (image : Image)
    (max_size_bytes current_size width height : ℕ) (bs : List ℕ)
    (hguard : max_size_bytes < current_size ∧ 100 < width ∧ 100 < height)
    (henc : env.writeJpeg (env.resize image (shrinkDim width) (shrinkDim height)) =
      .ok bs)
    (hfit : bs.length ≤ max_size_bytes) :
    resizeLoopT env image max_size_bytes current_size width height =
      ⟨.ok bs, [(shrinkDim width, shrinkDim height)]⟩ := by
  rw [resizeLoopT, dif_pos hguard, henc]
  dsimp only
  rw [if_pos hfit]

theorem resizeLoopT_step_continue (env : Env) (image : Image)
    (max_size_bytes current_size width height : ℕ) (bs : List ℕ)
    (hguard : max_size_bytes < current_size ∧ 100 < width ∧ 100 < height)
    (henc : env.writeJpeg (env.resize image (shrinkDim width) (shrinkDim height)) =
      .ok bs)
    (hnofit : ¬ bs.length ≤ max_size_bytes) :
    resizeLoopT env image max_size_bytes current_size width height =
      ⟨(resizeLoopT env image max_size_bytes bs.length
          (shrinkDim width) (shrinkDim height)).result,
        (shrinkDim width, shrinkDim height) ::
          (resizeLoopT env image max_size_bytes bs.length
            (shrinkDim width) (shrinkDim height)).attempts⟩ := by
  rw [resizeLoopT, dif_pos hguard, henc]
  dsimp only
  rw [if_neg hnofit]

theorem resize_imageT_load_ok (env : Env) (data : List ℕ) (max_size_bytes : ℕ)
    (img : Image) (hload : env.load data = .ok img) :
    resize_imageT env data max_size_bytes =
      resizeLoopT env img max_size_bytes data.length img.width img.height := by
  rw [resize_imageT, hload]

/-- Evaluation of the resize stage on the stub environment: the input is one
byte over budget, the first re-encoding fits. -/
theorem stub_resize_eval :
    resize_image stubEnv bigData (1024 * 1024) = .ok [0] := by
  rw [resize_image, resize_imageT_load_ok stubEnv bigData (1024 * 1024) stdImage rfl]
  rw [bigData_length]
  rw [show stdImage.width = 4000 from rfl, show stdImage.height = 3000 from rfl]
  rw [resizeLoopT_step_fit stubEnv stdImage (1024 * 1024) 1048577 4000 3000 [0]
    (by norm_num) rfl (by norm_num)]

theorem fromJson?_confidence (j : Json) (r : Receipt)
    (h : Receipt.fromJson? j = some r) :
    j.getKey "confidence" = Json.num r.confidence := by
  simp only [Receipt.fromJson?, Option.bind_eq_bind, Option.bind_eq_some,
    Option.pure_def, Option.some.injEq] at h
  obtain ⟨brand, hb, store, hs, date, hd, items, hi, total, ht, conf, hc, hr⟩ := h
  subst hr
  cases hj : j.getKey "confidence" <;> rw [hj] at hc <;>
    simp only [Json.asNum?, Option.some.injEq, reduceCtorEq] at hc
  rw [hc]

theorem fromJson?_none_conf (v : Json) (h : v.getKey "confidence" = Json.null) :
    Receipt.fromJson? v = none := by
  unfold Receipt.fromJson?
  rw [h]
  cases (v.getKey "brand").asStr? <;>
    cases (v.getKey "store").asStr? <;>
      cases (v.getKey "date").asStr? <;>
        cases (v.getKey "items").asItems? <;>
          cases (v.getKey "total").asStr? <;> rfl

theorem fromJson?_none_items (v : Json) (h : v.getKey "items" = Json.null) :
    Receipt.fromJson? v = none := by
  unfold Receipt.fromJson?
  rw [h]
  cases (v.getKey "brand").asStr? <;>
    cases (v.getKey "store").asStr? <;>
      cases (v.getKey "date").asStr? <;> rfl

theorem env101_loop_eval :
    resizeLoopT env101 ⟨101, 101, []⟩ 0 3 101 101 =
      ⟨.error "Failed to resize image to target size", [(90, 90)]⟩ := by
  rw [resizeLoopT_step_continue env101 ⟨101, 101, []⟩ 0 3 101 101 [7]
    (by norm_num) rfl (by norm_num)]
  rw [show shrinkDim 101 = 90 from by decide]
  rw [show ([7] : List ℕ).length = 1 from rfl]
  rw [resizeLoopT_floor_stop env101 ⟨101, 101, []⟩ 0 1 90 90 (by norm_num)
    (Or.inl (by norm_num))]

theorem analyze_stub_good :
    analyze stubEnv (clientN 9) bigData = .ok goodReceipt := by
  rw [analyze, analyzeWith, stub_resize_eval]
  rfl

theorem analyze_stub_transport :
    analyze stubEnv clientFail bigData = .error "transport failure" := by
  rw [analyze, analyzeWith, stub_resize_eval]
  rfl

/-- C1: the claim says an input already at or under the byte budget makes
`resize_image` return bytes at or under the budget.  The code does the
opposite: the `while` guard `current_size > max_size_bytes` is false from the
start, the loop body never runs, and the function falls through to
`Err("Failed to resize image to target size")`.  This theorem evaluates the
code at such a failing input (a 3-byte decodable input against the 1 MiB
budget): the result is the error, not a success. -/
theorem c1_under_budget_fails :
    smallData.length ≤ 1024 * 1024 ∧
    resize_image stubEnv smallData (1024 * 1024) =
      .error "Failed to resize image to target size" := by
  constructor
  · norm_num [smallData]
  · rw [resize_image, resize_imageT_load_ok stubEnv smallData (1024 * 1024) stdImage rfl]
    rw [show smallData.length = 3 from rfl]
    rw [show stdImage.width = 4000 from rfl, show stdImage.height = 3000 from rfl]
    rw [resizeLoopT, dif_neg (by norm_num)]

/-- C2: every `Ok(bytes)` returned by `resize_image` has length at or below
the `max_size_bytes` argument (the only success exit is guarded by
`current_size <= max_size_bytes`), and `analyze` invokes the pipeline with
the budget fixed to `1024 * 1024 = 1048576` bytes, so every image embedded in
a model request is at most 1 MiB. -/
theorem c2_budget_honored (env : Env) (client : ModelClient) (data : List ℕ)
    (max_size_bytes : ℕ) (bytes : List ℕ) :
    (resize_image env data max_size_bytes = .ok bytes →
      bytes.length ≤ max_size_bytes) ∧
    analyze env client data = analyzeWith env client data 1048576 := by
  constructor
  · intro hok
    cases hload : env.load data with
    | error e =>
      rw [resize_image, resize_imageT, hload] at hok
      simp at hok
    | ok img =>
      rw [resize_image, resize_imageT_load_ok env data max_size_bytes img hload] at hok
      exact resizeLoopT_ok_le env img max_size_bytes img.width data.length
        img.height bytes hok
  · rfl

/-- C2 witness: the stub pipeline returns `[0]`, whose length is within the
1 MiB budget by the theorem. -/
theorem c2_budget_honored_witness : ([0] : List ℕ).length ≤ 1024 * 1024 :=
  (c2_budget_honored stubEnv (clientN 9) bigData (1024 * 1024) [0]).1 stub_resize_eval

/-- C3 counterexample: a model reply with `confidence: 2.0` decodes without
any range check, so `analyze` returns a `Receipt` whose confidence is outside
`[0, 1]` — the claimed invariant `confidence ∈ [0, 1]` is false. -/
theorem c3_counterexample :
    analyze stubEnv (clientN 5) bigData = .ok conf2Receipt ∧
      ¬ conf2Receipt.confidence ≤ 1 := by
  constructor
  · rw [analyze, analyzeWith, stub_resize_eval]
    rfl
  · norm_num [conf2Receipt]

/-- C3 amended: whenever `analyze` returns a `Receipt`, every stage of the
pipeline succeeded — the resize, the transport call on the request built
from the resized image, the body parse, the `content[0].text` extraction,
and the JSON parse of that extracted text — and the JSON value `v` the
pipeline actually decoded the `Receipt` from carried a numeric `confidence`
field whose value is stored unchanged in the `Receipt` (absence is a decode
failure); no `[0, 1]` range check is performed, so out-of-range values flow
through. -/
theorem c3_amended (env : Env) (client : ModelClient) (data : List ℕ)
    (r : Receipt) (hok : analyze env client data = .ok r) :
    ∃ resized body : List ℕ, ∃ response_body : Json, ∃ analysis_result : String,
      ∃ v : Json,
      resize_image env data (1024 * 1024) = .ok resized ∧
      client.invoke
        (env.encodeJson (bedrockRequest env (env.base64Encode resized))) =
        .ok body ∧
      env.parseJsonBytes body = some response_body ∧
      (((response_body.getKey "content").getIdx 0).getKey "text").asStr? =
        some analysis_result ∧
      env.parseJson analysis_result = some v ∧
      Receipt.fromJson? v = some r ∧
      v.getKey "confidence" = Json.num r.confidence := by
  rw [analyze, analyzeWith] at hok
  cases hres : resize_image env data (1024 * 1024) with
  | error e => rw [hres] at hok; simp at hok
  | ok resized =>
    rw [hres] at hok
    dsimp only at hok
    cases hinv : client.invoke
        (env.encodeJson (bedrockRequest env (env.base64Encode resized))) with
    | error e => rw [hinv] at hok; simp at hok
    | ok body =>
      rw [hinv] at hok
      dsimp only at hok
      cases hbody : env.parseJsonBytes body with
      | none => rw [hbody] at hok; simp at hok
      | some response_body =>
        rw [hbody] at hok
        dsimp only at hok
        cases htext : (((response_body.getKey "content").getIdx 0).getKey
            "text").asStr? with
        | none => rw [htext] at hok; simp at hok
        | some analysis_result =>
          rw [htext] at hok
          dsimp only at hok
          cases hparse : env.parseJson analysis_result with
          | none => rw [hparse] at hok; simp at hok
          | some v =>
            rw [hparse] at hok
            dsimp only at hok
            cases hfj : Receipt.fromJson? v with
            | none => rw [hfj] at hok; simp at hok
            | some rec =>
              rw [hfj] at hok
              simp only [Except.ok.injEq] at hok
              subst hok
              exact ⟨resized, body, response_body, analysis_result, v,
                rfl, hinv, hbody, htext, hparse, hfj,
                fromJson?_confidence v rec hfj⟩

/-- C3 amended witness: instantiated on the stub success path. -/
theorem c3_amended_witness :
    ∃ resized body : List ℕ, ∃ response_body : Json, ∃ analysis_result : String,
      ∃ v : Json,
      resize_image stubEnv bigData (1024 * 1024) = .ok resized ∧
      (clientN 9).invoke
        (stubEnv.encodeJson (bedrockRequest stubEnv
          (stubEnv.base64Encode resized))) = .ok body ∧
      stubEnv.parseJsonBytes body = some response_body ∧
      (((response_body.getKey "content").getIdx 0).getKey "text").asStr? =
        some analysis_result ∧
      stubEnv.parseJson analysis_result = some v ∧
      Receipt.fromJson? v = some goodReceipt ∧
      v.getKey "confidence" = Json.num goodReceipt.confidence :=
  c3_amended stubEnv (clientN 9) bigData goodReceipt analyze_stub_good

/-- C4: if the codec succeeds but every re-encoding at every dimension pair
stays above the budget, `resize_image` terminates with the
too-small-to-shrink failure (the `anyhow` message), and the number of loop
iterations is bounded by the starting width, because the tracked width
strictly decreases every iteration. -/
theorem c4_never_fits_terminates (env : Env) (data : List ℕ)
    (max_size_bytes : ℕ) (img : Image)
    (hload : env.load data = .ok img)
    (henc : ∀ w h, ∃ bs, env.writeJpeg (env.resize img w h) = .ok bs ∧
      max_size_bytes < bs.length) :
    resize_image env data max_size_bytes =
      .error "Failed to resize image to target size" ∧
    (resize_imageT env data max_size_bytes).attempts.length ≤ img.width := by
  rw [resize_image, resize_imageT_load_ok env data max_size_bytes img hload]
  exact resizeLoopT_never_fits env img max_size_bytes henc img.width
    data.length img.height

/-- C4 witness: a stub whose re-encodings always have 2 bytes against
budget 1. -/
theorem c4_never_fits_terminates_witness :
    resize_image envC4 smallData 1 =
      .error "Failed to resize image to target size" ∧
    (resize_imageT envC4 smallData 1).attempts.length ≤ stdImage.width :=
  c4_never_fits_terminates envC4 smallData 1 stdImage rfl
    (fun w h => ⟨[1, 2], rfl, by norm_num⟩)

/-- C5 counterexample: from a 101 × 101 image whose re-encodings never meet
the budget, the single loop iteration shrinks the tracked dimensions to
90 × 90 — at or below the 100-pixel floor — and still performs a resize
attempt there (the recorded attempt list is `[(90, 90)]`), contradicting the
claim that no resize attempt is made at dimensions at or below the floor. -/
theorem c5_counterexample :
    (resize_imageT env101 smallData 0).attempts = [(90, 90)] ∧ (90 : ℕ) ≤ 100 := by
  constructor
  · rw [resize_imageT_load_ok env101 smallData 0 ⟨101, 101, []⟩ rfl]
    rw [show smallData.length = 3 from rfl]
    rw [show (Image.mk 101 101 []).width = 101 from rfl,
      show (Image.mk 101 101 []).height = 101 from rfl]
    rw [env101_loop_eval]
  · norm_num

/-- C5 amended: the 100-pixel floor is only checked at the loop boundary:
whenever the encoded size still exceeds the budget and either tracked
dimension is at or below 100 at that check, the loop stops at once with the
too-small failure, performing no further resize attempt — but the iteration
that crossed the floor has already attempted (and possibly succeeded at)
dimensions at or below 100. -/
theorem c5_amended (env : Env) (image : Image)
    (max_size_bytes current_size width height : ℕ)
    (hsize : max_size_bytes < current_size)
    (hfloor : width ≤ 100 ∨ height ≤ 100) :
    resizeLoopT env image max_size_bytes current_size width height =
      ⟨.error "Failed to resize image to target size", []⟩ :=
  resizeLoopT_floor_stop env image max_size_bytes current_size width height
    hsize hfloor

/-- C5 amended witness: the boundary check at 90 × 90 with size over
budget. -/
theorem c5_amended_witness :
    resizeLoopT env101 ⟨101, 101, []⟩ 0 1 90 90 =
      ⟨.error "Failed to resize image to target size", []⟩ :=
  c5_amended env101 ⟨101, 101, []⟩ 0 1 90 90 (by norm_num) (Or.inl (by norm_num))

/-- C6 counterexample: for the starting dimension `W = 4294967295` the first
attempted width is `3865470464` (dimensions are first rounded to `f32`, which
rounds `W` up to `2^32` and makes the product exactly representable), while
`⌊W * 0.9⌋ = 3865470565`: the deviation after `k = 1` iteration is `101`
units, far beyond integer-truncation tolerance, so the claimed
`⌊W * 0.9^k⌋` formula does not hold for every starting dimension pair. -/
theorem c6_counterexample :
    (resize_imageT envHuge smallData 1).attempts = [(3865470464, 3865470464)] ∧
    4294967295 * 9 / 10 = 3865470565 ∧
    3865470464 + 101 = 3865470565 := by
  refine ⟨?_, by norm_num, by norm_num⟩
  rw [resize_imageT_load_ok envHuge smallData 1 ⟨4294967295, 4294967295, []⟩ rfl]
  rw [show smallData.length = 3 from rfl]
  rw [show (Image.mk 4294967295 4294967295 []).width = 4294967295 from rfl,
    show (Image.mk 4294967295 4294967295 []).height = 4294967295 from rfl]
  rw [resizeLoopT_step_fit envHuge ⟨4294967295, 4294967295, []⟩ 1 3
    4294967295 4294967295 [5] (by norm_num) rfl (by norm_num)]
  rw [show shrinkDim 4294967295 = 3865470464 from by decide]

/-- C6 amended: after `k + 1` iterations without success the attempted
dimensions are exactly the `(k + 1)`-fold iterates of the per-iteration `f32`
shrink step applied to the previous iteration's truncated dimensions (the
compounding recurrence); and for starting dimensions within the `f32`-exact
range (at most `2 ^ 24`) the iterates track the ideal compounded value
`d * 0.9 ^ (k + 1)` within `3` units per iteration, the integer-truncation
and float-rounding tolerance. -/
theorem c6_amended (env : Env) (image : Image)
    (max_size_bytes current_size width height k : ℕ) :
    (k < (resizeLoopT env image max_size_bytes current_size width
        height).attempts.length →
      (resizeLoopT env image max_size_bytes current_size width
        height).attempts.get? k =
        some (shrinkDim^[k + 1] width, shrinkDim^[k + 1] height)) ∧
    (width ≤ 2 ^ 24 →
      |(shrinkDim^[k + 1] width : ℚ) - (width : ℚ) * (9 / 10) ^ (k + 1)| ≤
        3 * ((k + 1 : ℕ) : ℚ)) ∧
    (height ≤ 2 ^ 24 →
      |(shrinkDim^[k + 1] height : ℚ) - (height : ℚ) * (9 / 10) ^ (k + 1)| ≤
        3 * ((k + 1 : ℕ) : ℚ)) :=
  ⟨fun hk => resizeLoopT_attempts env image max_size_bytes width current_size
      height k hk,
    fun hw => shrinkIter_tolerance width hw (k + 1),
    fun hh => shrinkIter_tolerance height hh (k + 1)⟩

/-- C6 amended witness: first iteration from 101 × 101. -/
theorem c6_amended_witness :
    (resizeLoopT env101 ⟨101, 101, []⟩ 0 3 101 101).attempts.get? 0 =
      some (shrinkDim^[0 + 1] 101, shrinkDim^[0 + 1] 101) ∧
    |(shrinkDim^[0 + 1] (101 : ℕ) : ℚ) - ((101 : ℕ) : ℚ) * (9 / 10) ^ (0 + 1)| ≤
      3 * ((0 + 1 : ℕ) : ℚ) := by
  have h := c6_amended env101 ⟨101, 101, []⟩ 0 3 101 101 0
  exact ⟨h.1 (by rw [env101_loop_eval]; simp), h.2.1 (by norm_num)⟩

/-- C7: given the image was prepared and the transport succeeded, `analyze`
fails (returns an error, hence no `Receipt`) in each of the four independent
malformed-reply scenarios: the envelope has no `content[0].text` string
(the `Failed to extract analysis result` error), the extracted text is not
valid JSON, the parsed JSON has no `confidence` field, and the parsed JSON
has no `items` field (all three decode failures of `serde_json::from_str`). -/
theorem c7_malformed_cases (env : Env) (client : ModelClient) (data : List ℕ)
    (img body : List ℕ) (envlp : Json)
    (hresize : resize_image env data (1024 * 1024) = .ok img)
    (hinvoke : client.invoke
      (env.encodeJson (bedrockRequest env (env.base64Encode img))) = .ok body)
    (hbody : env.parseJsonBytes body = some envlp) :
    ((((envlp.getKey "content").getIdx 0).getKey "text").asStr? = none →
      analyze env client data = .error "Failed to extract analysis result") ∧
    (∀ t, (((envlp.getKey "content").getIdx 0).getKey "text").asStr? = some t →
      env.parseJson t = none →
      analyze env client data = .error "malformed model reply") ∧
    (∀ t v, (((envlp.getKey "content").getIdx 0).getKey "text").asStr? = some t →
      env.parseJson t = some v → v.getKey "confidence" = Json.null →
      analyze env client data = .error "malformed model reply") ∧
    (∀ t v, (((envlp.getKey "content").getIdx 0).getKey "text").asStr? = some t →
      env.parseJson t = some v → v.getKey "items" = Json.null →
      analyze env client data = .error "malformed model reply") := by
  refine ⟨?_, ?_, ?_, ?_⟩
  · intro htext
    rw [analyze, analyzeWith, hresize]
    dsimp only
    rw [hinvoke]
    dsimp only
    rw [hbody]
    dsimp only
    rw [htext]
  · intro t htext hparse
    rw [analyze, analyzeWith, hresize]
    dsimp only
    rw [hinvoke]
    dsimp only
    rw [hbody]
    dsimp only
    rw [htext]
    dsimp only
    rw [hparse]
  · intro t v htext hparse hconf
    rw [analyze, analyzeWith, hresize]
    dsimp only
    rw [hinvoke]
    dsimp only
    rw [hbody]
    dsimp only
    rw [htext]
    dsimp only
    rw [hparse]
    dsimp only
    rw [fromJson?_none_conf v hconf]
  · intro t v htext hparse hitems
    rw [analyze, analyzeWith, hresize]
    dsimp only
    rw [hinvoke]
    dsimp only
    rw [hbody]
    dsimp only
    rw [htext]
    dsimp only
    rw [hparse]
    dsimp only
    rw [fromJson?_none_items v hitems]

/-- C7 witness: the four scenarios instantiated on the stub environment. -/
theorem c7_malformed_cases_witness :
    analyze stubEnv (clientN 1) bigData =
      .error "Failed to extract analysis result" ∧
    analyze stubEnv (clientN 2) bigData = .error "malformed model reply" ∧
    analyze stubEnv (clientN 3) bigData = .error "malformed model reply" ∧
    analyze stubEnv (clientN 4) bigData = .error "malformed model reply" := by
  refine ⟨?_, ?_, ?_, ?_⟩
  · exact (c7_malformed_cases stubEnv (clientN 1) bigData [0] [1] (Json.obj [])
      stub_resize_eval rfl rfl).1 rfl
  · exact (c7_malformed_cases stubEnv (clientN 2) bigData [0] [2]
      (mkEnvelope "notjson") stub_resize_eval rfl rfl).2.1 "notjson" rfl rfl
  · exact (c7_malformed_cases stubEnv (clientN 3) bigData [0] [3]
      (mkEnvelope "noconf") stub_resize_eval rfl rfl).2.2.1 "noconf"
      noConfReceiptJson rfl rfl rfl
  · exact (c7_malformed_cases stubEnv (clientN 4) bigData [0] [4]
      (mkEnvelope "noitems") stub_resize_eval rfl rfl).2.2.2 "noitems"
      noItemsReceiptJson rfl rfl rfl

/-- C8: serializing any `Receipt` to the target JSON shape and decoding the
result yields the same `Receipt` field for field, with the item order
preserved. -/
theorem c8_roundtrip (r : Receipt) :
    Receipt.fromJson? (Receipt.toJson r) = some r := by
  have hitems : ∀ l : List ReceiptItem,
      decodeItemList (l.map ReceiptItem.toJson) = some l := by
    intro l
    induction l with
    | nil => rfl
    | cons it rest IH =>
      have hit : ReceiptItem.fromJson? (ReceiptItem.toJson it) = some it := rfl
      simp [decodeItemList, hit, IH]
  unfold Receipt.fromJson?
  rw [show (Receipt.toJson r).getKey "brand" = Json.str r.brand from rfl,
    show (Receipt.toJson r).getKey "store" = Json.str r.store from rfl,
    show (Receipt.toJson r).getKey "date" = Json.str r.date from rfl,
    show (Receipt.toJson r).getKey "items" =
      Json.arr (r.items.map ReceiptItem.toJson) from rfl,
    show (Receipt.toJson r).getKey "total" = Json.str r.total from rfl,
    show (Receipt.toJson r).getKey "confidence" = Json.num r.confidence from rfl]
  simp [Json.asStr?, Json.asNum?, Json.asItems?, hitems r.items]

/-- C9: the HTTP handler collapses every pipeline failure, whatever the
error, into the one generic `INTERNAL_SERVER_ERROR` (500) status, and wraps
a successful `Receipt` as `{ "result": receipt }`. -/
theorem c9_handler_collapses (env : Env) (client : ModelClient)
    (payload : ReceiptRequest) (image_data : List ℕ)
    (hdec : env.base64Decode payload.image = some image_data) :
    (∀ e, analyze env client image_data = .error e →
      analyze_receipt env client payload = .status 500) ∧
    (∀ r, analyze env client image_data = .ok r →
      analyze_receipt env client payload =
        .ok (Json.obj [("result", Receipt.toJson r)])) := by
  constructor
  · intro e he
    rw [analyze_receipt, hdec]
    dsimp only
    rw [he]
  · intro r hr
    rw [analyze_receipt, hdec]
    dsimp only
    rw [hr]

/-- C9 witness: a transport failure maps to status 500 and the stub success
maps to the wrapped receipt. -/
theorem c9_handler_collapses_witness :
    analyze_receipt stubEnv clientFail ⟨"payload"⟩ = .status 500 ∧
    analyze_receipt stubEnv (clientN 9) ⟨"payload"⟩ =
      .ok (Json.obj [("result", Receipt.toJson goodReceipt)]) :=
  ⟨(c9_handler_collapses stubEnv clientFail ⟨"payload"⟩ bigData rfl).1
      "transport failure" analyze_stub_transport,
    (c9_handler_collapses stubEnv (clientN 9) ⟨"payload"⟩ bigData rfl).2
      goodReceipt analyze_stub_good⟩

/-- C10: when the base64 decode of the `image` field fails, the handler's
`.unwrap()` panics instead of producing any HTTP response. -/
theorem c10_bad_base64_panics (env : Env) (client : ModelClient)
    (payload : ReceiptRequest) (hdec : env.base64Decode payload.image = none) :
    analyze_receipt env client payload = .panicked := by
  rw [analyze_receipt, hdec]

/-- C10 witness: a stub whose base64 decoder rejects the payload. -/
theorem c10_bad_base64_panics_witness :
    analyze_receipt env101 (clientN 9) ⟨"not-base64"⟩ = .panicked :=
  c10_bad_base64_panics env101 (clientN 9) ⟨"not-base64"⟩ rfl
